import Mathlib

/-!
Verification of the dataklasses library (src/dataklasses.py): a class
decorator that synthesizes `__init__`, `__repr__` and `__eq__` methods by
compiling a generic per-arity template once (cached by field count) and then
rewriting the compiled code object's symbol tables (`co_names`,
`co_varnames`) from the placeholder names `_0, _1, ...` to the concrete
field names.

The development shallowly embeds:
* Python `dict` merge/insertion-order semantics, as used by `all_hints`;
* the five source-text generators (`make__init__`, `make__repr__`,
  `make__eq__`, `make__iter__`, `make__hash__`) character for character;
* the code-object model (`_CODE_FIELD_ORDER` fields on Python >= 3.8),
  `code_replace`, `patch_args_and_attributes` and `patch_attributes`;
* the `lru_cache` arity-keyed template cache inside `codegen`;
* the runtime behaviour of the synthesized methods (attribute stores and
  name-table-indexed loads), and the decorator's orchestration.
-/

set_option autoImplicit false

namespace Dataklasses

/-! ### Python dict model (insertion-ordered association lists) -/

/-- An insertion-ordered Python dict, modelled as an association list. -/
abbrev Dict (V : Type) := List (String × V)

variable {V : Type} {M : Type}

/-- Dict key lookup: first binding for the key, if any. -/
def lookup : Dict V → String → Option V
  | [], _ => none
  | (k, v) :: rest, key => if k = key then some v else lookup rest key

/-- The keys of a dict, in insertion order. -/
def keys (d : Dict V) : List String := d.map Prod.fst

/-- Python `key in d` membership test. -/
def hasKey (d : Dict V) (k : String) : Bool := (lookup d k).isSome

/-- Python `d[k] = v`: overwrite in place if the key is present (keeping its
insertion position), otherwise append at the end. -/
def dictSet : Dict V → String → V → Dict V
  | [], k, v => [(k, v)]
  | (k', v') :: rest, k, v =>
    if k' = k then (k', v) :: rest else (k', v') :: dictSet rest k v

/-- Python dict-unpacking merge `{**a, **b}`: the keys of `a` first in their
order (values overridden by `b` where `b` also binds them), then the keys of
`b` that are not in `a`, in `b`'s order. -/
def pyMerge (a b : Dict V) : Dict V :=
  a.map (fun p => (p.1, (lookup b p.1).getD p.2)) ++
    b.filter (fun p => !hasKey a p.1)

/-- Embedding of `all_hints` (src/dataklasses.py line 96-97):
`reduce(lambda x, y: {**getattr(y, '__annotations__', {}), **x}, cls.__mro__, {})`.
The argument is the class's method resolution order as a list of
per-class annotation dicts, most-derived class first (as `cls.__mro__` is). -/
def all_hints (mro : List (Dict V)) : Dict V :=
  mro.foldl (fun x y => pyMerge y x) []

/-- Modelled from the spec: the Field Resolver's output order, walking the
inheritance chain from most-base to most-derived and appending each level's
field names that have not appeared yet, so that a re-declared field keeps the
position of its first appearance and derived-only fields come last. -/
def fieldOrderSpecAux (acc : List String) : List (List String) → List String
  | [] => acc
  | ks :: rest => fieldOrderSpecAux (acc ++ ks.filter (fun k => !decide (k ∈ acc))) rest

/-- Modelled from the spec: field order for a base-first list of levels. -/
def fieldOrderSpec (levels : List (List String)) : List String :=
  fieldOrderSpecAux [] levels

/-! ### Source-text generators

Each generator is embedded character for character from the Python function
of the same name; `{` and `}` appearing in generated f-string source text are
written with the escapes `\x7b` and `\x7d`. -/

/-- The placeholder name list `[f'_{n}' for n in range(numfields)]` built by
`codegen.make_func_code` (src/dataklasses.py line 24). -/
def placeholderNames (n : Nat) : List String :=
  (List.range n).map (fun i => "_" ++ toString i)

/-- Source text built by `make__init__` (src/dataklasses.py lines 100-103). -/
def make__init__src (fields : List String) : String :=
  "def __init__(self, " ++ String.intercalate "," fields ++ "):\n" ++
    String.intercalate "\n" (fields.map (fun name => " self." ++ name ++ " = " ++ name ++ "\n"))

/-- Source text built by `make__repr__` (src/dataklasses.py lines 106-110).
Note the generated f-string pieces are `{self.NAME!r}`: the repr lists the
field values only, with no `name=` prefix. -/
def make__repr__src (fields : List String) : String :=
  "def __repr__(self):\n return f\"\x7btype(self).__name__\x7d(" ++
    String.intercalate ", " (fields.map (fun name => "\x7bself." ++ name ++ "!r\x7d")) ++ ")\"\n"

/-- Source text built by `make__eq__` (src/dataklasses.py lines 113-122). -/
def make__eq__src (fields : List String) : String :=
  "def __eq__(self, other):\n    if self.__class__ is other.__class__:\n        return (" ++
    String.intercalate "," (fields.map (fun name => "self." ++ name)) ++
    ",) == (" ++
    String.intercalate "," (fields.map (fun name => "other." ++ name)) ++
    ",)\n    else:\n        return NotImplemented\n    "

/-- Source text built by `make__iter__` (src/dataklasses.py lines 125-127). -/
def make__iter__src (fields : List String) : String :=
  "def __iter__(self):\n" ++
    String.intercalate "\n" (fields.map (fun name => "   yield self." ++ name))

/-- Source text built by `make__hash__` (src/dataklasses.py lines 130-134). -/
def make__hash__src (fields : List String) : String :=
  "def __hash__(self):\n    return hash((" ++
    String.intercalate "," (fields.map (fun name => "self." ++ name)) ++ ",))\n"

/-- Split a character sequence into lines at newline characters. -/
def splitLines : List Char → List (List Char)
  | [] => [[]]
  | '\n' :: rest => [] :: splitLines rest
  | c :: rest =>
    match splitLines rest with
    | [] => [[c]]
    | l :: ls => (c :: l) :: ls

/-- A line that counts as an indented statement of a `def` body: it starts
with a space and is not blank. -/
def isBodyLine (l : List Char) : Bool :=
  match l with
  | ' ' :: _ => l.any (fun c => c ≠ ' ')
  | _ => false

/-- The indented body lines of a generated `def` source text. -/
def pyDefBodyLines (src : String) : List (List Char) :=
  ((splitLines src.data).drop 1).filter isBodyLine

/-- Models the Python grammar requirement that a `def` statement must contain
at least one (indented, non-blank) body statement; `exec` of a body-less
`def` raises `IndentationError`. -/
def pyDefHasBody (src : String) : Bool := !(pyDefBodyLines src).isEmpty

/-! ### Code objects and the symbol-table patch -/

/-- A CPython code object, with the fields listed in `_CODE_FIELD_ORDER`
(src/dataklasses.py lines 35-54, Python >= 3.8 layout including
`co_posonlyargcount`). Bytecode, constants and line tables are kept as
opaque payloads (`List Nat`); the patching functions never touch them. -/
structure Code where
  co_argcount : Nat
  co_posonlyargcount : Nat
  co_kwonlyargcount : Nat
  co_nlocals : Nat
  co_stacksize : Nat
  co_flags : Nat
  co_code : List Nat
  co_consts : List Nat
  co_names : List String
  co_varnames : List String
  co_filename : String
  co_name : String
  co_firstlineno : Nat
  co_lnotab : List Nat
  co_freevars : List String
  co_cellvars : List String
  deriving Repr, DecidableEq

/-- The keyword arguments accepted by `code_replace`: one optional override
per entry of `_CODE_FIELD_ORDER`, `none` meaning "keep the old value". -/
structure CodeUpdates where
  co_argcount : Option Nat := none
  co_posonlyargcount : Option Nat := none
  co_kwonlyargcount : Option Nat := none
  co_nlocals : Option Nat := none
  co_stacksize : Option Nat := none
  co_flags : Option Nat := none
  co_code : Option (List Nat) := none
  co_consts : Option (List Nat) := none
  co_names : Option (List String) := none
  co_varnames : Option (List String) := none
  co_filename : Option String := none
  co_name : Option String := none
  co_firstlineno : Option Nat := none
  co_lnotab : Option (List Nat) := none
  co_freevars : Option (List String) := none
  co_cellvars : Option (List String) := none

/-- Embedding of `code_replace` (src/dataklasses.py lines 57-72): rebuild the
code object with each field taken from the keyword override when given and
from the original otherwise. -/
def code_replace (c : Code) (u : CodeUpdates) : Code where
  co_argcount := u.co_argcount.getD c.co_argcount
  co_posonlyargcount := u.co_posonlyargcount.getD c.co_posonlyargcount
  co_kwonlyargcount := u.co_kwonlyargcount.getD c.co_kwonlyargcount
  co_nlocals := u.co_nlocals.getD c.co_nlocals
  co_stacksize := u.co_stacksize.getD c.co_stacksize
  co_flags := u.co_flags.getD c.co_flags
  co_code := u.co_code.getD c.co_code
  co_consts := u.co_consts.getD c.co_consts
  co_names := u.co_names.getD c.co_names
  co_varnames := u.co_varnames.getD c.co_varnames
  co_filename := u.co_filename.getD c.co_filename
  co_name := u.co_name.getD c.co_name
  co_firstlineno := u.co_firstlineno.getD c.co_firstlineno
  co_lnotab := u.co_lnotab.getD c.co_lnotab
  co_freevars := u.co_freevars.getD c.co_freevars
  co_cellvars := u.co_cellvars.getD c.co_cellvars

/-- A Python function object: its code object and (the identity of) its
globals dict, as passed through by the patching functions. -/
structure Func where
  code : Code
  globalsId : Nat
  deriving Repr, DecidableEq

/-- Embedding of `patch_args_and_attributes` (src/dataklasses.py lines
75-83): rebuild the function with `co_names` set to the first `start` old
names followed by the field names, and `co_varnames` set to `'self'`
followed by the field names. -/
def patch_args_and_attributes (func : Func) (fields : List String) (start : Nat := 0) : Func where
  code := code_replace func.code
    { co_names := some (func.code.co_names.take start ++ fields)
      co_varnames := some ("self" :: fields) }
  globalsId := func.globalsId

/-- Embedding of `patch_attributes` (src/dataklasses.py lines 86-93):
rebuild the function with `co_names` set to the first `start` old names
followed by the field names. -/
def patch_attributes (func : Func) (fields : List String) (start : Nat := 0) : Func where
  code := code_replace func.code
    { co_names := some (func.code.co_names.take start ++ fields) }
  globalsId := func.globalsId

/-- The parameter names of a code object: the first `co_argcount` entries of
`co_varnames`. -/
def paramNames (c : Code) : List String := c.co_varnames.take c.co_argcount

/-- Pure placeholder substitution on a name table: every `_i` becomes the
i-th concrete field name, every other name is kept. This is the rewriting
the specification describes for the Specializer; it is compared against what
`patch_attributes` actually produces. -/
def substPlaceholders (names fields : List String) : List String :=
  names.map (fun nm =>
    match (placeholderNames fields.length).indexOf? nm with
    | some i => fields.getD i nm
    | none => nm)

/-! ### The arity-keyed template cache

`codegen` (src/dataklasses.py lines 21-29) wraps each generator in an
`lru_cache`-decorated `make_func_code`. The cache is modelled explicitly:
a dict from arity to the compiled template together with a count of how
many times the compile step (`exec` of the generated source) has run. -/

/-- The state of one `make_func_code` cache: the arity-keyed entries in
most-recently-used-first order, and the number of times the compile step
has run. -/
structure CacheState (F : Type) where
  cache : List (Nat × F)
  compiles : Nat
  deriving Repr, DecidableEq

/-- Lookup in the arity-keyed cache. -/
def cacheFind {F : Type} : List (Nat × F) → Nat → Option F
  | [], _ => none
  | (k, f) :: rest, n => if k = n then some f else cacheFind rest n

/-- Remove the entry for a key from the cache (used to move a hit entry to
the most-recently-used position). -/
def cacheRemove {F : Type} : List (Nat × F) → Nat → List (Nat × F)
  | [], _ => []
  | (k, f) :: rest, n => if k = n then rest else (k, f) :: cacheRemove rest n

/-- The default `maxsize` of `functools.lru_cache` — the bound used by the
bare `@lru_cache()` on src/dataklasses.py line 22. -/
def lruMaxsize : Nat := 128

/-- Embedding of the `lru_cache`-decorated `make_func_code` produced by
`codegen` (src/dataklasses.py lines 21-29), with the stdlib
`functools.lru_cache` default semantics (`maxsize=128`, least-recently-used
eviction): on a hit, return the cached template and move its entry to the
most-recently-used position; on a miss, run the compile step once, insert
the result at the most-recently-used position and drop the least-recently-
used entry if the cache would exceed `lruMaxsize`. `compile n` stands for
`exec(func([f'_{i}' ...]))` followed by `d.popitem()[1]`. -/
def make_func_code {F : Type} (compile : Nat → F) (s : CacheState F) (n : Nat) :
    F × CacheState F :=
  match cacheFind s.cache n with
  | some f => (f, { s with cache := (n, f) :: cacheRemove s.cache n })
  | none =>
    (compile n, ⟨((n, compile n) :: s.cache).take lruMaxsize, s.compiles + 1⟩)

/-- Run a sequence of `make_func_code` requests (one per decorated type, in
order), returning the final cache state. -/
def requestAll {F : Type} (compile : Nat → F) (s : CacheState F) : List Nat → CacheState F
  | [] => s
  | n :: rest => requestAll compile (make_func_code compile s n).2 rest

/-! ### Runtime semantics of the synthesized methods -/

/-- A Python instance: its identity, the name of its exact runtime class and
its attribute dict. `V` is the type of attribute values. -/
structure Obj (V : Type) where
  id : Nat
  cls : String
  attrs : Dict V
  deriving Repr, DecidableEq

/-- Attribute store `obj.name = v`. -/
def setattr (o : Obj V) (k : String) (v : V) : Obj V :=
  { o with attrs := dictSet o.attrs k v }

/-- Attribute load `obj.name`; `none` models `AttributeError`. -/
def getattr (o : Obj V) (k : String) : Option V := lookup o.attrs k

/-- Behaviour of the synthesized `__init__` after patching: the body runs
`self.f = f` for each field in order, with the i-th parameter bound to the
i-th positional argument. `construct cls fields args oid` is the instance
produced by calling the class with `args` positionally. -/
def construct (clsName : String) (fields : List String) (args : List V) (oid : Nat) : Obj V :=
  (fields.zip args).foldl (fun o p => setattr o p.1 p.2) ⟨oid, clsName, []⟩

/-- Behaviour of the synthesized `__repr__` after patching: the f-string
interpolates `type(self).__name__` and then `\x7bself.NAME!r\x7d` for each field
in order, joined by a comma and space, between parentheses. `reprV` is the
value-repr function; `none` models an `AttributeError` during evaluation. -/
def repr_sem (reprV : V → String) (fields : List String) (self : Obj V) : Option String :=
  (fields.mapM (fun name => getattr self name)).map (fun vs =>
    self.cls ++ "(" ++ String.intercalate ", " (vs.map reprV) ++ ")")

/-- The result of a Python `__eq__` slot call. -/
inductive EqResult where
  | bool : Bool → EqResult
  | notImplemented : EqResult
  deriving Repr, DecidableEq

/-- Behaviour of the compiled `__eq__` template of arity `n` executed over a
given `co_names` table. The compiled layout of the generated source (checked
against CPython) references `__class__` at name index 0, the i-th attribute
at name index `i + 1`, and the `NotImplemented` global at name index `n + 1`.
A name index outside the table, like an attribute miss, yields `none`,
modelling a runtime failure. Only the binding `NotImplemented` resolves as a
global in the generated code. -/
def run_eq [DecidableEq V] (n : Nat) (names : List String) (self other : Obj V) :
    Option EqResult :=
  if self.cls = other.cls then do
    let sv ← (List.range n).mapM (fun i => do
      let nm ← names.get? (i + 1)
      getattr self nm)
    let ov ← (List.range n).mapM (fun i => do
      let nm ← names.get? (i + 1)
      getattr other nm)
    pure (EqResult.bool (decide (sv = ov)))
  else do
    let nm ← names.get? (n + 1)
    if nm = "NotImplemented" then pure EqResult.notImplemented else none

/-- Modelled from the spec: the outer comparison protocol for `a == b`. The
left operand's `__eq__` is asked first; if it signals `NotImplemented` the
reflected right operand's `__eq__` is asked; if both decline, the comparison
falls back to identity. -/
def pyEqTop (lhs rhs : EqResult) (lhsId rhsId : Nat) : Bool :=
  match lhs with
  | .bool b => b
  | .notImplemented =>
    match rhs with
    | .bool b => b
    | .notImplemented => lhsId == rhsId

/-- Modelled from the Python object model: `object.__hash__`, the hash a
class retains when no `__hash__` is ever attached to it, is derived from the
instance's identity alone, not from its attribute values. -/
def default_hash (o : Obj V) : Nat := o.id

/-! ### The decorator's orchestration -/

/-- The mutable class state the decorator acts on: the dict of directly
defined attributes (`vars(cls)`) restricted to the method slots, and the
`__match_args__` metadata. `M` is the type of method objects. -/
structure DKClass (M : Type) where
  clsdict : Dict M
  matchArgs : Option (List String)
  deriving Repr, DecidableEq

/-- Embedding of the orchestration in `dataklass` (src/dataklasses.py lines
155-161): for each of `__init__`, `__repr__`, `__eq__`, attach the
synthesized method only when the class does not itself define that name
(`not NAME in clsdict`); the `__iter__` and `__hash__` lines are commented
out in the source and nothing is ever attached for them; finally set
`__match_args__` to the tuple of field names. The synthesized methods are
passed in as `synthInit`, `synthRepr`, `synthEq`. -/
def dataklass_attach (synthInit synthRepr synthEq : M) (fields : List String)
    (c : DKClass M) : DKClass M :=
  let d0 := c.clsdict
  let d1 := if hasKey d0 "__init__" then d0 else dictSet d0 "__init__" synthInit
  let d2 := if hasKey d1 "__repr__" then d1 else dictSet d1 "__repr__" synthRepr
  let d3 := if hasKey d2 "__eq__" then d2 else dictSet d2 "__eq__" synthEq
  { clsdict := d3, matchArgs := some fields }

/-- Keyword-argument binding for a call `T(f1=v1, ..., fN=vN)`: each
parameter name is looked up in the keyword dict; `none` models a
`TypeError` for a missing argument. -/
def bindKwargs (params : List String) (kwargs : Dict V) : Option (List V) :=
  params.mapM (lookup kwargs)

/-- A concrete compiled `__eq__` template function of arity 2, with the
name-table layout CPython produces for `make__eq__(['_0','_1'])` source:
`co_names = ('__class__', '_0', '_1', 'NotImplemented')`,
`co_varnames = ('self', 'other')`. Payload fields (bytecode, constants,
sizes) are arbitrary; nothing below depends on them. -/
def eqTemplateFunc2 : Func :=
  ⟨⟨2, 0, 0, 2, 4, 67, [], [], ["__class__", "_0", "_1", "NotImplemented"],
    ["self", "other"], "<string>", "__eq__", 1, [], [], []⟩, 0⟩

/-- A concrete compiled `__init__` template function of arity 2, with the
layout CPython produces for `make__init__(['_0','_1'])` source:
`co_argcount = 3`, `co_names = ('_0', '_1')`,
`co_varnames = ('self', '_0', '_1')`. Payload fields are arbitrary. -/
def initTemplateFunc2 : Func :=
  ⟨⟨3, 0, 0, 3, 2, 67, [], [], ["_0", "_1"],
    ["self", "_0", "_1"], "<string>", "__init__", 1, [], [], []⟩, 0⟩

/-! ### Helper lemmas -/

theorem placeholderNames_length (n : Nat) : (placeholderNames n).length = n := by
  simp [placeholderNames]

theorem lookup_eq_none_iff (d : Dict V) (k : String) :
    lookup d k = none ↔ k ∉ keys d := by
  induction d with
  | nil => simp [lookup, keys]
  | cons p rest ih =>
    obtain ⟨k', v⟩ := p
    by_cases h : k' = k
    · subst h
      simp [lookup, keys]
    · have h' : ¬ k = k' := fun hk => h hk.symm
      simp [lookup, keys, h, h', ih]

theorem lookup_append (d₁ d₂ : Dict V) (k : String) :
    lookup (d₁ ++ d₂) k = ((lookup d₁ k).or (lookup d₂ k)) := by
  induction d₁ with
  | nil => simp [lookup]
  | cons p rest ih =>
    obtain ⟨k', v⟩ := p
    by_cases h : k' = k <;> simp [lookup, h, ih]

theorem lookup_dictSet (d : Dict V) (k : String) (v : V) (k' : String) :
    lookup (dictSet d k v) k' = if k = k' then some v else lookup d k' := by
  induction d with
  | nil => simp [dictSet, lookup]
  | cons p rest ih =>
    obtain ⟨k₀, v₀⟩ := p
    by_cases h : k₀ = k
    · subst h
      by_cases h' : k₀ = k' <;> simp [dictSet, lookup, h']
    · simp only [dictSet, if_neg h]
      by_cases h' : k₀ = k'
      · subst h'
        have hne : ¬ k = k₀ := fun hk => h hk.symm
        simp [lookup, hne]
      · simp [lookup, h', ih]

theorem dictSet_eq_append (d : Dict V) (k : String) (v : V) (h : lookup d k = none) :
    dictSet d k v = d ++ [(k, v)] := by
  induction d with
  | nil => simp [dictSet]
  | cons p rest ih =>
    obtain ⟨k₀, v₀⟩ := p
    simp only [lookup] at h
    by_cases h' : k₀ = k
    · simp [h'] at h
    · simp [h'] at h
      simp [dictSet, h', ih h]

theorem hasKey_eq_decide (d : Dict V) (k : String) :
    hasKey d k = decide (k ∈ keys d) := by
  cases hlk : lookup d k with
  | none =>
    have hmem := (lookup_eq_none_iff d k).mp hlk
    simp [hasKey, hlk, hmem]
  | some v =>
    have hmem : k ∈ keys d := by
      by_contra hk
      rw [(lookup_eq_none_iff d k).mpr hk] at hlk
      cases hlk
    simp [hasKey, hlk, hmem]

theorem lookup_zip (fields : List String) (args : List V) (hnd : fields.Nodup)
    (i : Nat) (hf : i < fields.length) (ha : i < args.length) :
    lookup (fields.zip args) (fields.get ⟨i, hf⟩) = some (args.get ⟨i, ha⟩) := by
  induction fields generalizing args i with
  | nil => exact absurd hf (by simp)
  | cons f fs ih =>
    cases args with
    | nil => exact absurd ha (by simp)
    | cons a as =>
      cases i with
      | zero => simp [lookup]
      | succ j =>
        have hj : j < fs.length := by simpa using hf
        have hmem : fs.get ⟨j, hj⟩ ∈ fs := List.get_mem fs j hj
        have hne : f ≠ fs.get ⟨j, hj⟩ := fun h =>
          (List.nodup_cons.mp hnd).1 (h ▸ hmem)
        simp only [List.zip_cons_cons, List.get_cons_succ, lookup, if_neg hne]
        exact ih as (List.nodup_cons.mp hnd).2 j hj (by simpa using ha)

theorem mapM_lookup_cons (l : List String) (d : Dict V) (k : String) (v : V)
    (hk : k ∉ l) :
    l.mapM (lookup ((k, v) :: d)) = l.mapM (lookup d) := by
  induction l with
  | nil => rfl
  | cons x xs ih =>
    have hne : k ≠ x := fun h => hk (h ▸ List.mem_cons_self x xs)
    have hx : lookup ((k, v) :: d) x = lookup d x := by simp [lookup, hne]
    simp only [List.mapM_cons, hx, ih (fun h => hk (List.mem_cons_of_mem x h))]

theorem mapM_lookup_zip (fields : List String) (args : List V) (hnd : fields.Nodup)
    (hlen : args.length = fields.length) :
    fields.mapM (lookup (fields.zip args)) = some args := by
  induction fields generalizing args with
  | nil =>
    cases args with
    | nil => rfl
    | cons a as => simp at hlen
  | cons f fs ih =>
    cases args with
    | nil => simp at hlen
    | cons a as =>
      have hnd' := List.nodup_cons.mp hnd
      have hhead : lookup ((f, a) :: fs.zip as) f = some a := by simp [lookup]
      rw [List.zip_cons_cons]
      simp only [List.mapM_cons, hhead,
        mapM_lookup_cons fs (fs.zip as) f a hnd'.1,
        ih as hnd'.2 (by simpa using hlen)]
      rfl

theorem foldl_setattr_cls (ps : List (String × V)) (o : Obj V) :
    (ps.foldl (fun o p => setattr o p.1 p.2) o).cls = o.cls := by
  induction ps generalizing o with
  | nil => rfl
  | cons p ps ih =>
    rw [List.foldl_cons]
    exact ih (setattr o p.1 p.2)

theorem foldl_setattr_id (ps : List (String × V)) (o : Obj V) :
    (ps.foldl (fun o p => setattr o p.1 p.2) o).id = o.id := by
  induction ps generalizing o with
  | nil => rfl
  | cons p ps ih =>
    rw [List.foldl_cons]
    exact ih (setattr o p.1 p.2)

theorem foldl_setattr_attrs (ps : List (String × V)) (o : Obj V)
    (hnd : (ps.map Prod.fst).Nodup) (hdisj : ∀ p ∈ ps, lookup o.attrs p.1 = none) :
    (ps.foldl (fun o p => setattr o p.1 p.2) o).attrs = o.attrs ++ ps := by
  induction ps generalizing o with
  | nil => simp
  | cons p ps ih =>
    obtain ⟨pk, pv⟩ := p
    have hset : (setattr o pk pv).attrs = o.attrs ++ [(pk, pv)] := by
      simp [setattr,
        dictSet_eq_append o.attrs pk pv (hdisj (pk, pv) (List.mem_cons_self _ ps))]
    have hnd0 : (pk :: ps.map Prod.fst).Nodup := by simpa only [List.map_cons] using hnd
    have hnd' := List.nodup_cons.mp hnd0
    have hdisj' : ∀ q ∈ ps, lookup (setattr o pk pv).attrs q.1 = none := by
      intro q hq
      have hne : ¬ pk = q.1 := fun h => hnd'.1 (h ▸ List.mem_map_of_mem Prod.fst hq)
      rw [hset, lookup_append, hdisj q (List.mem_cons_of_mem _ hq)]
      simp [lookup, hne]
    rw [List.foldl_cons, ih (setattr o pk pv) hnd'.2 hdisj', hset, List.append_assoc,
      List.singleton_append]

theorem construct_cls (clsName : String) (fields : List String) (args : List V) (oid : Nat) :
    (construct clsName fields args oid).cls = clsName :=
  foldl_setattr_cls _ _

theorem construct_id (clsName : String) (fields : List String) (args : List V) (oid : Nat) :
    (construct clsName fields args oid).id = oid :=
  foldl_setattr_id _ _

theorem keys_append (d₁ d₂ : Dict V) : keys (d₁ ++ d₂) = keys d₁ ++ keys d₂ :=
  List.map_append Prod.fst d₁ d₂

theorem map_fst_filter_not_hasKey (a : Dict V) (b : List (String × V)) :
    (b.filter (fun p => !hasKey a p.1)).map Prod.fst
      = (b.map Prod.fst).filter (fun k => !hasKey a k) := by
  induction b with
  | nil => rfl
  | cons p rest ih =>
    obtain ⟨k, v⟩ := p
    cases h : hasKey a k with
    | false => simp [List.filter_cons, h, ih]
    | true => simp [List.filter_cons, h, ih]

theorem keys_pyMerge (a b : Dict V) :
    keys (pyMerge a b) = keys a ++ (keys b).filter (fun k => !decide (k ∈ keys a)) := by
  unfold pyMerge
  rw [keys_append]
  congr 1
  · show keys (a.map fun p => (p.1, (lookup b p.1).getD p.2)) = keys a
    unfold keys
    rw [List.map_map]
    rfl
  · rw [show keys (b.filter fun p => !hasKey a p.1)
        = (b.filter (fun p => !hasKey a p.1)).map Prod.fst from rfl,
      map_fst_filter_not_hasKey]
    apply List.filter_congr
    intro k _
    rw [hasKey_eq_decide]

theorem all_hints_eq_foldr (mro : List (Dict V)) :
    all_hints mro = (mro.reverse).foldr pyMerge [] :=
  (List.foldr_reverse mro pyMerge []).symm

theorem fieldOrderSpecAux_eq (ls : List (List String)) (acc : List String) :
    fieldOrderSpecAux acc ls = acc ++ (fieldOrderSpec ls).filter (fun k => !decide (k ∈ acc)) := by
  induction ls generalizing acc with
  | nil => simp [fieldOrderSpecAux, fieldOrderSpec]
  | cons ks rest ih =>
    have h0 : fieldOrderSpec (ks :: rest)
        = ks ++ (fieldOrderSpec rest).filter (fun k => !decide (k ∈ ks)) := by
      rw [fieldOrderSpec, fieldOrderSpecAux, ih]
      simp
    rw [fieldOrderSpecAux, ih, h0, List.filter_append, ← List.append_assoc]
    congr 1
    rw [List.filter_filter]
    apply List.filter_congr
    intro k hk
    by_cases ha : k ∈ acc <;> by_cases hks : k ∈ ks <;>
      simp [ha, hks, List.mem_filter, List.mem_append]

theorem fieldOrderSpec_cons (ks : List String) (rest : List (List String)) :
    fieldOrderSpec (ks :: rest)
      = ks ++ (fieldOrderSpec rest).filter (fun k => !decide (k ∈ ks)) := by
  rw [fieldOrderSpec, fieldOrderSpecAux, fieldOrderSpecAux_eq]
  simp

theorem keys_foldr_merge (R : List (Dict V)) :
    keys (R.foldr pyMerge []) = fieldOrderSpec (R.map keys) := by
  induction R with
  | nil => rfl
  | cons L R ih =>
    rw [List.foldr_cons, keys_pyMerge, ih, List.map_cons, fieldOrderSpec_cons]

theorem nodup_keys_foldr (R : List (Dict V)) (h : ∀ d ∈ R, (keys d).Nodup) :
    (keys (R.foldr pyMerge [])).Nodup := by
  induction R with
  | nil => simp [keys]
  | cons L R ih =>
    rw [List.foldr_cons, keys_pyMerge]
    refine List.Nodup.append (h L (List.mem_cons_self _ _))
      (List.Nodup.filter _ (ih (fun d hd => h d (List.mem_cons_of_mem _ hd)))) ?_
    intro a haL haF
    have hb := (List.mem_filter.mp haF).2
    simp at hb
    exact hb haL

theorem construct_attrs (clsName : String) (fields : List String) (args : List V)
    (oid : Nat) (hnd : fields.Nodup) (hlen : args.length = fields.length) :
    (construct clsName fields args oid).attrs = fields.zip args := by
  have hmap : (fields.zip args).map Prod.fst = fields :=
    List.map_fst_zip fields args (le_of_eq hlen.symm)
  have hnd' : ((fields.zip args).map Prod.fst).Nodup := by rw [hmap]; exact hnd
  exact (foldl_setattr_attrs (fields.zip args) ⟨oid, clsName, []⟩
    hnd' (fun p _ => rfl)).trans (by simp)

theorem condSet_lookup_self (d : Dict M) (k : String) (v : M) :
    lookup (if hasKey d k then d else dictSet d k v) k
      = some ((lookup d k).getD v) := by
  cases h : lookup d k with
  | some m => simp [hasKey, h]
  | none => simp [hasKey, h, lookup_dictSet]

theorem condSet_lookup_other (d : Dict M) (k k' : String) (v : M) (h : ¬ k = k') :
    lookup (if hasKey d k then d else dictSet d k v) k' = lookup d k' := by
  cases hh : hasKey d k <;> simp [lookup_dictSet, h]

/-! ### Claim theorems -/

/-- Claim C1 (code_bug): the unpatched `__eq__` template does signal
`NotImplemented` on a class mismatch (its `NotImplemented` global sits at
name index `n + 1`), but `dataklass` attaches
`patch_attributes(make__eq__(nfields), fields, 1)`, whose rewritten name
table is `('__class__', *fields)` — length `n + 1` — so the patched method's
`NotImplemented` reference is out of range and a cross-type comparison fails
at runtime instead of signalling `NotImplemented` (so
`Coordinates(2,3) == (2,3)` raises rather than evaluating to false). -/
theorem spec_C1_cross_type_eq_fails (V : Type) [DecidableEq V] (tmpl : Func)
    (fields : List String) (n : Nat) (hn : fields.length = n)
    (hnames : tmpl.code.co_names = "__class__" :: (placeholderNames n ++ ["NotImplemented"]))
    (a b : Obj V) (hcls : a.cls ≠ b.cls) :
    run_eq n tmpl.code.co_names a b = some EqResult.notImplemented ∧
    (patch_attributes tmpl fields 1).code.co_names = "__class__" :: fields ∧
    run_eq n (patch_attributes tmpl fields 1).code.co_names a b = none := by
  have hpatch : (patch_attributes tmpl fields 1).code.co_names = "__class__" :: fields := by
    simp [patch_attributes, code_replace, hnames]
  refine ⟨?_, hpatch, ?_⟩
  · unfold run_eq
    rw [if_neg hcls, hnames]
    have h2 : (placeholderNames n ++ ["NotImplemented"]).get? (placeholderNames n).length
        = some "NotImplemented" := List.get?_concat_length _ _
    rw [placeholderNames_length] at h2
    rw [List.get?_cons_succ, h2]
    simp
  · unfold run_eq
    rw [if_neg hcls, hpatch]
    have hnone : ("__class__" :: fields).get? (n + 1) = none := by
      rw [List.get?_eq_none]
      simp [hn]
    rw [hnone]
    rfl

/-- Witness for C1 at the failing input of the specification's scenario:
`Coordinates(2, 3)` compared against a value of a different runtime class. -/
theorem spec_C1_cross_type_eq_fails_witness :
    run_eq 2 eqTemplateFunc2.code.co_names
        (construct "Coordinates" ["x", "y"] ([2, 3] : List Nat) 1) ⟨2, "tuple", []⟩
      = some EqResult.notImplemented ∧
    (patch_attributes eqTemplateFunc2 ["x", "y"] 1).code.co_names = "__class__" :: ["x", "y"] ∧
    run_eq 2 (patch_attributes eqTemplateFunc2 ["x", "y"] 1).code.co_names
        (construct "Coordinates" ["x", "y"] ([2, 3] : List Nat) 1) ⟨2, "tuple", []⟩
      = none :=
  spec_C1_cross_type_eq_fails Nat eqTemplateFunc2 ["x", "y"] 2 (by decide) (by decide)
    (construct "Coordinates" ["x", "y"] ([2, 3] : List Nat) 1) ⟨2, "tuple", []⟩ (by decide)

/-- Claim C2 (counterexample): the synthesized repr of `Coordinates(2, 3)` is
`"Coordinates(2, 3)"` — the generated f-string pieces are `\x7bself.x!r\x7d`
with no `x=` prefix — not `"Coordinates(x=2, y=3)"` as the claim states. -/
theorem spec_C2_repr_counterexample :
    make__repr__src ["x", "y"] =
      "def __repr__(self):\n return f\"\x7btype(self).__name__\x7d(\x7bself.x!r\x7d, \x7bself.y!r\x7d)\"\n" ∧
    repr_sem (fun v : Nat => toString v) ["x", "y"]
        (construct "Coordinates" ["x", "y"] [2, 3] 1) = some "Coordinates(2, 3)" ∧
    (some "Coordinates(2, 3)" : Option String) ≠ some "Coordinates(x=2, y=3)" := by
  refine ⟨by decide, by decide, by decide⟩

/-- Claim C2 (amended): for every decorated type with fields `[f1..fN]` and
no user `__repr__`, the synthesized representation is exactly the runtime
type's name followed by a parenthesized, comma-separated list of the field
VALUES' representations in declaration order, with no `name=` prefixes. -/
theorem spec_C2_repr_values_only (V : Type) (reprV : V → String) (clsName : String)
    (fields : List String) (args : List V) (oid : Nat)
    (hnd : fields.Nodup) (hlen : args.length = fields.length) :
    repr_sem reprV fields (construct clsName fields args oid)
      = some (clsName ++ "(" ++ String.intercalate ", " (args.map reprV) ++ ")") := by
  unfold repr_sem
  have hattrs := construct_attrs clsName fields args oid hnd hlen
  have hfun : (fun name => getattr (construct clsName fields args oid) name)
      = fun name => lookup (fields.zip args) name := by
    funext name
    rw [getattr, hattrs]
  rw [hfun, mapM_lookup_zip fields args hnd hlen]
  simp [construct_cls]

/-- Witness for the amended C2 at the specification's scenario values. -/
theorem spec_C2_repr_values_only_witness :
    repr_sem (fun v : Nat => toString v) ["x", "y"]
        (construct "Coordinates" ["x", "y"] ([2, 3] : List Nat) 1)
      = some ("Coordinates" ++ "(" ++
          String.intercalate ", " (([2, 3] : List Nat).map (fun v => toString v)) ++ ")") :=
  spec_C2_repr_values_only Nat (fun v => toString v) "Coordinates" ["x", "y"] [2, 3] 1
    (by decide) (by decide)

/-- Claim C3 (confirmed): constructing with N positional values yields an
instance whose attribute `fi` equals the i-th argument, for every i. -/
theorem spec_C3_positional_construction (V : Type) (clsName : String) (fields : List String)
    (args : List V) (oid : Nat) (hnd : fields.Nodup) (hlen : args.length = fields.length)
    (i : Nat) (hi : i < fields.length) :
    getattr (construct clsName fields args oid) (fields.get ⟨i, hi⟩)
      = some (args.get ⟨i, by rw [hlen]; exact hi⟩) := by
  rw [getattr, construct_attrs clsName fields args oid hnd hlen]
  exact lookup_zip fields args hnd i hi _

/-- Witness for C3: `Coordinates(2, 3)` has attribute `y = 3`. -/
theorem spec_C3_positional_construction_witness :
    getattr (construct "Coordinates" ["x", "y"] ([2, 3] : List Nat) 1)
        (["x", "y"].get ⟨1, by decide⟩)
      = some (([2, 3] : List Nat).get ⟨1, by decide⟩) :=
  spec_C3_positional_construction Nat "Coordinates" ["x", "y"] [2, 3] 1
    (by decide) (by decide) 1 (by decide)

/-- Claim C4 (code_bug): for zero fields the generated `__init__` source is
`def __init__(self, ):` with an empty body — `exec` of it raises
`IndentationError`, so decorating a zero-field type fails instead of
succeeding with arity 0. The zero-field `__eq__` source is also malformed
(it contains the illegal tuple display `(,)`), while the zero-field
`__repr__` source alone would have been fine. -/
theorem spec_C4_zero_fields_broken :
    make__init__src [] = "def __init__(self, ):\n" ∧
    pyDefHasBody (make__init__src []) = false ∧
    pyDefHasBody (make__init__src ["x", "y"]) = true ∧
    make__eq__src [] =
      "def __eq__(self, other):\n    if self.__class__ is other.__class__:\n        return (,) == (,)\n    else:\n        return NotImplemented\n    " ∧
    make__repr__src [] = "def __repr__(self):\n return f\"\x7btype(self).__name__\x7d()\"\n" := by
  refine ⟨by decide, by decide, by decide, by decide, by decide⟩

/-- Claim C5 (confirmed): the key sequence of `all_hints` equals the
specification's field order — walk the MRO from most-base to most-derived,
keep the position of a field's first appearance, append derived-only fields
after inherited ones — and it is duplicate-free whenever each level's own
annotation dict is. -/
theorem spec_C5_field_resolution (V : Type) (mro : List (Dict V)) :
    keys (all_hints mro) = fieldOrderSpec ((mro.reverse).map keys) ∧
    ((∀ d ∈ mro, (keys d).Nodup) → (keys (all_hints mro)).Nodup) := by
  constructor
  · rw [all_hints_eq_foldr, keys_foldr_merge]
  · intro h
    rw [all_hints_eq_foldr]
    exact nodup_keys_foldr _ (fun d hd => h d (List.mem_reverse.mp hd))

/-- Witness for C5 on a two-level chain: base declares `x, y`, derived
re-declares `y` and adds `z`; the resolved order is `[x, y, z]`. -/
theorem spec_C5_field_resolution_witness :
    (keys (all_hints [[("y", 1), ("z", 2)], [("x", 3), ("y", 4)]])).Nodup ∧
    keys (all_hints [[("y", 1), ("z", 2)], [("x", 3), ("y", 4)]]) = ["x", "y", "z"] :=
  ⟨(spec_C5_field_resolution Nat [[("y", 1), ("z", 2)], [("x", 3), ("y", 4)]]).2 (by decide),
    by decide⟩

/-- Claim C6 (counterexample): specialization of the `__eq__` template is not
pure placeholder substitution — `patch_attributes(..., fields, 1)` keeps only
the first name and replaces the whole remainder, which drops the trailing
`NotImplemented` identifier (an identifier that is not a placeholder). -/
theorem spec_C6_specializer_counterexample :
    (patch_attributes eqTemplateFunc2 ["x", "y"] 1).code.co_names
      ≠ substPlaceholders eqTemplateFunc2.code.co_names ["x", "y"] := by
  decide

/-- Claim C6 (amended): the patch functions rebuild the code object changing
only `co_names` (and, for the constructor patch, `co_varnames`), leaving the
bytecode, constants and every other component untouched, with no recompile;
`co_names` becomes the first `start` old names followed by the field names.
When the template's names after position `start` are exactly the
placeholders — as for the `__init__` (start 0) and `__repr__` (start 2)
templates — this is exactly placeholder-for-field-name substitution. -/
theorem spec_C6_specializer_frame (f : Func) (fields pre : List String) (start n : Nat) :
    (patch_attributes f fields start).code
        = { f.code with co_names := f.code.co_names.take start ++ fields } ∧
    (patch_attributes f fields start).globalsId = f.globalsId ∧
    (patch_args_and_attributes f fields start).code
        = { f.code with co_names := f.code.co_names.take start ++ fields, co_varnames := "self" :: fields } ∧
    (patch_args_and_attributes f fields start).globalsId = f.globalsId ∧
    (f.code.co_names = pre ++ placeholderNames n → pre.length = start →
      (patch_attributes f fields start).code.co_names = pre ++ fields ∧
      (patch_args_and_attributes f fields start).code.co_names = pre ++ fields) := by
  refine ⟨rfl, rfl, rfl, rfl, fun hpre hlen => ?_⟩
  have htake : f.code.co_names.take start = pre := by
    rw [hpre, ← hlen, List.take_left]
  constructor
  · show f.code.co_names.take start ++ fields = pre ++ fields
    rw [htake]
  · show f.code.co_names.take start ++ fields = pre ++ fields
    rw [htake]

/-- Witness for the amended C6 on the arity-2 `__init__` template: its name
tail is exactly the placeholder list, and patching substitutes the two
concrete field names positionally. -/
theorem spec_C6_specializer_frame_witness :
    (patch_attributes initTemplateFunc2 ["x", "y"] 0).code.co_names = [] ++ ["x", "y"] ∧
    (patch_args_and_attributes initTemplateFunc2 ["x", "y"] 0).code.co_names
      = [] ++ ["x", "y"] :=
  (spec_C6_specializer_frame initTemplateFunc2 ["x", "y"] [] 0 2).2.2.2.2
    (by decide) (by decide)

set_option maxRecDepth 100000 in
set_option maxHeartbeats 1000000 in
/-- Claim C7 (counterexample): `@lru_cache()` defaults to `maxsize = 128`
with least-recently-used eviction, so a (family, arity) pair is NOT compiled
at most once. Starting from an empty cache, requesting arities 0..128 runs
the compile step 129 times, evicts the arity-0 entry, and a second request
for arity 0 runs the compile step a 130th time instead of returning the
cached template. -/
theorem spec_C7_cache_counterexample :
    (requestAll (fun _ => (0 : Nat)) ⟨[], 0⟩ (List.range 129)).compiles = 129 ∧
    cacheFind (requestAll (fun _ => (0 : Nat)) ⟨[], 0⟩ (List.range 129)).cache 0 = none ∧
    (make_func_code (fun _ => (0 : Nat))
        (requestAll (fun _ => (0 : Nat)) ⟨[], 0⟩ (List.range 129)) 0).2.compiles = 130 := by
  refine ⟨by decide, by decide, by decide⟩

/-- Claim C7 (amended): a second request for the same (family, arity)
returns the identical cached template without running the compile step
again, provided the entry is still cached — in particular immediately after
any request for that arity; the cache is bounded at `lruMaxsize = 128`
entries per family and evicts the least recently used arity, so sharing
fails only after more than 128 distinct arities. -/
theorem spec_C7_template_cache_amended (F : Type) (compile : Nat → F) (s : CacheState F)
    (n : Nat) (f : F) :
    ((make_func_code compile (make_func_code compile s n).2 n).1
        = (make_func_code compile s n).1 ∧
      (make_func_code compile (make_func_code compile s n).2 n).2.compiles
        = (make_func_code compile s n).2.compiles) ∧
    (cacheFind s.cache n = some f →
      (make_func_code compile s n).1 = f ∧
      (make_func_code compile s n).2.compiles = s.compiles) := by
  constructor
  · cases hc : cacheFind s.cache n with
    | some f0 =>
      simp [make_func_code, hc, cacheFind]
    | none =>
      have htake : ((n, compile n) :: s.cache).take lruMaxsize
          = (n, compile n) :: s.cache.take 127 := rfl
      simp [make_func_code, hc, htake, cacheFind]
  · intro hc
    simp [make_func_code, hc]

/-- Witness for the amended C7: a state whose cache holds template `42` for
arity 2; requesting arity 2 returns `42` without compiling, and an immediate
repeat request returns the same template with the same compile count. -/
theorem spec_C7_template_cache_amended_witness :
    ((make_func_code (fun m : Nat => m + 100)
          (make_func_code (fun m : Nat => m + 100) ⟨[(2, 42)], 7⟩ 2).2 2).1
        = (make_func_code (fun m : Nat => m + 100) ⟨[(2, 42)], 7⟩ 2).1 ∧
      (make_func_code (fun m : Nat => m + 100)
          (make_func_code (fun m : Nat => m + 100) ⟨[(2, 42)], 7⟩ 2).2 2).2.compiles
        = (make_func_code (fun m : Nat => m + 100) ⟨[(2, 42)], 7⟩ 2).2.compiles) ∧
    ((make_func_code (fun m : Nat => m + 100) ⟨[(2, 42)], 7⟩ 2).1 = 42 ∧
      (make_func_code (fun m : Nat => m + 100) ⟨[(2, 42)], 7⟩ 2).2.compiles = 7) :=
  ⟨(spec_C7_template_cache_amended Nat (fun m => m + 100) ⟨[(2, 42)], 7⟩ 2 42).1,
    (spec_C7_template_cache_amended Nat (fun m => m + 100) ⟨[(2, 42)], 7⟩ 2 42).2 (by decide)⟩

/-- Claim C8 (confirmed): a method family directly defined on the class is
left exactly as it was — never overwritten — while every family not directly
defined gets the synthesized method attached. -/
theorem spec_C8_user_methods_respected (M : Type) (synthInit synthRepr synthEq : M)
    (fields : List String) (c : DKClass M) :
    (∀ m, lookup c.clsdict "__init__" = some m →
      lookup (dataklass_attach synthInit synthRepr synthEq fields c).clsdict "__init__" = some m) ∧
    (∀ m, lookup c.clsdict "__repr__" = some m →
      lookup (dataklass_attach synthInit synthRepr synthEq fields c).clsdict "__repr__" = some m) ∧
    (∀ m, lookup c.clsdict "__eq__" = some m →
      lookup (dataklass_attach synthInit synthRepr synthEq fields c).clsdict "__eq__" = some m) ∧
    (lookup c.clsdict "__init__" = none →
      lookup (dataklass_attach synthInit synthRepr synthEq fields c).clsdict "__init__"
        = some synthInit) ∧
    (lookup c.clsdict "__repr__" = none →
      lookup (dataklass_attach synthInit synthRepr synthEq fields c).clsdict "__repr__"
        = some synthRepr) ∧
    (lookup c.clsdict "__eq__" = none →
      lookup (dataklass_attach synthInit synthRepr synthEq fields c).clsdict "__eq__"
        = some synthEq) := by
  have hinit : lookup (dataklass_attach synthInit synthRepr synthEq fields c).clsdict "__init__"
      = some ((lookup c.clsdict "__init__").getD synthInit) := by
    simp only [dataklass_attach]
    rw [condSet_lookup_other _ "__eq__" "__init__" _ (by decide),
      condSet_lookup_other _ "__repr__" "__init__" _ (by decide),
      condSet_lookup_self]
  have hrepr : lookup (dataklass_attach synthInit synthRepr synthEq fields c).clsdict "__repr__"
      = some (((lookup c.clsdict "__repr__").or (some synthRepr)).getD synthRepr) := by
    simp only [dataklass_attach]
    rw [condSet_lookup_other _ "__eq__" "__repr__" _ (by decide)]
    rw [condSet_lookup_self, condSet_lookup_other _ "__init__" "__repr__" _ (by decide)]
    cases lookup c.clsdict "__repr__" <;> rfl
  have heq : lookup (dataklass_attach synthInit synthRepr synthEq fields c).clsdict "__eq__"
      = some (((lookup c.clsdict "__eq__").or (some synthEq)).getD synthEq) := by
    simp only [dataklass_attach]
    rw [condSet_lookup_self,
      condSet_lookup_other _ "__repr__" "__eq__" _ (by decide),
      condSet_lookup_other _ "__init__" "__eq__" _ (by decide)]
    cases lookup c.clsdict "__eq__" <;> rfl
  refine ⟨fun m hm => ?_, fun m hm => ?_, fun m hm => ?_, fun hm => ?_, fun hm => ?_,
    fun hm => ?_⟩ <;> simp [hinit, hrepr, heq, hm]

/-- Witness for C8: a class defining only `__repr__`, decorated: the user
`__repr__` survives unchanged and `__init__` is synthesized. -/
theorem spec_C8_user_methods_respected_witness :
    lookup (dataklass_attach "synth_i" "synth_r" "synth_e" ["x"]
        ⟨[("__repr__", "user_r")], none⟩).clsdict "__repr__" = some "user_r" ∧
    lookup (dataklass_attach "synth_i" "synth_r" "synth_e" ["x"]
        ⟨[("__repr__", "user_r")], none⟩).clsdict "__init__" = some "synth_i" :=
  ⟨(spec_C8_user_methods_respected String "synth_i" "synth_r" "synth_e" ["x"]
      ⟨[("__repr__", "user_r")], none⟩).2.1 "user_r" (by decide),
    (spec_C8_user_methods_respected String "synth_i" "synth_r" "synth_e" ["x"]
      ⟨[("__repr__", "user_r")], none⟩).2.2.2.1 (by decide)⟩

/-- Claim C9 (confirmed): the patched constructor's parameter names are
`self` followed by the concrete field names, and keyword binding
`T(f1=v1, ..., fN=vN)` binds exactly the positional argument list, producing
the same instance as the positional call. -/
theorem spec_C9_keyword_call (V : Type) (f : Func) (clsName : String) (fields : List String)
    (args : List V) (oid : Nat) (hargc : f.code.co_argcount = fields.length + 1)
    (hnd : fields.Nodup) (hlen : args.length = fields.length) :
    paramNames (patch_args_and_attributes f fields).code = "self" :: fields ∧
    bindKwargs fields (fields.zip args) = some args ∧
    construct clsName fields ((bindKwargs fields (fields.zip args)).getD []) oid
      = construct clsName fields args oid := by
  have hbind : bindKwargs fields (fields.zip args) = some args :=
    mapM_lookup_zip fields args hnd hlen
  refine ⟨?_, hbind, ?_⟩
  · rw [paramNames,
      show (patch_args_and_attributes f fields).code.co_varnames = "self" :: fields from rfl,
      show (patch_args_and_attributes f fields).code.co_argcount = f.code.co_argcount from rfl,
      hargc]
    have hl : ("self" :: fields).length = fields.length + 1 := by simp
    rw [← hl, List.take_length]
  · rw [hbind]
    rfl

/-- Witness for C9 on the arity-2 template with fields `x, y`. -/
theorem spec_C9_keyword_call_witness :
    paramNames (patch_args_and_attributes initTemplateFunc2 ["x", "y"]).code
      = "self" :: ["x", "y"] ∧
    bindKwargs ["x", "y"] (["x", "y"].zip ([2, 3] : List Nat)) = some [2, 3] ∧
    construct "Coordinates" ["x", "y"]
        ((bindKwargs ["x", "y"] (["x", "y"].zip ([2, 3] : List Nat))).getD []) 1
      = construct "Coordinates" ["x", "y"] [2, 3] 1 :=
  spec_C9_keyword_call Nat initTemplateFunc2 "Coordinates" ["x", "y"] [2, 3] 1
    (by decide) (by decide) (by decide)

/-- Claim C10 (confirmed): the decorator never attaches `__iter__` or
`__hash__` (their generators exist but the attachment lines are commented
out), so the class's hash slot is exactly what it was before decoration —
the inherited identity-based default — and two distinct instances that are
equal under the synthesized equality can have different (identity) hashes. -/
theorem spec_C10_no_iter_no_hash (M : Type) (synthInit synthRepr synthEq : M)
    (fields : List String) (c : DKClass M) :
    lookup (dataklass_attach synthInit synthRepr synthEq fields c).clsdict "__hash__"
      = lookup c.clsdict "__hash__" ∧
    lookup (dataklass_attach synthInit synthRepr synthEq fields c).clsdict "__iter__"
      = lookup c.clsdict "__iter__" ∧
    hasKey (dataklass_attach synthInit synthRepr synthEq fields c).clsdict "__hash__"
      = hasKey c.clsdict "__hash__" ∧
    run_eq 1 ["__class__", "x"] (construct "C" ["x"] ([5] : List Nat) 1)
        (construct "C" ["x"] ([5] : List Nat) 2) = some (EqResult.bool true) ∧
    default_hash (construct "C" ["x"] ([5] : List Nat) 1)
      ≠ default_hash (construct "C" ["x"] ([5] : List Nat) 2) := by
  have hh : lookup (dataklass_attach synthInit synthRepr synthEq fields c).clsdict "__hash__"
      = lookup c.clsdict "__hash__" := by
    simp only [dataklass_attach]
    rw [condSet_lookup_other _ "__eq__" "__hash__" _ (by decide),
      condSet_lookup_other _ "__repr__" "__hash__" _ (by decide),
      condSet_lookup_other _ "__init__" "__hash__" _ (by decide)]
  have hi : lookup (dataklass_attach synthInit synthRepr synthEq fields c).clsdict "__iter__"
      = lookup c.clsdict "__iter__" := by
    simp only [dataklass_attach]
    rw [condSet_lookup_other _ "__eq__" "__iter__" _ (by decide),
      condSet_lookup_other _ "__repr__" "__iter__" _ (by decide),
      condSet_lookup_other _ "__init__" "__iter__" _ (by decide)]
  exact ⟨hh, hi, by rw [hasKey, hasKey, hh], by decide, by decide⟩

end Dataklasses
